import Mathlib

/-!
Shallow embedding of the Calorie_Optimizer diet-planning core.

The repository translates a nutrition catalog (one pandas row per food
item) and user nutrition targets into a PuLP linear program
(`src/model.py, build_diet_model`), solves it with an external CBC engine
(`src/solver.py, solve_model`), extracts a sparse solution table
(`src/solver.py, extract_solution`) and aggregates metrics
(`src/analysis.py, compute_totals / evaluate_solution`).

Numbers are modelled by ℚ (the Python code uses floats; every claim under
study is structural or exact-arithmetic, so the rational model is the
standard shallow embedding).  The LP itself is embedded deeply: linear
expressions are lists of (coefficient, variable) terms plus a constant,
constraints carry their PuLP name, comparison sense, and both sides, and
an assignment is a function from variables to ℚ.
-/

namespace CalorieOptimizer

/-- A row of the cleaned nutrition catalog, as consumed by
`build_diet_model` and `extract_solution`: columns `Food_Item`,
`Meal_Type`, the four constrained nutrients (per serving), and
`Estimated_Serving_Weight_g`. -/
structure Row where
  food_item : String
  meal_type : String
  calories : ℚ
  protein : ℚ
  fat : ℚ
  carbs : ℚ
  serving_weight : ℚ
deriving Repr, DecidableEq

/-- The LP variables created by `build_diet_model`:
`servings` and `select` are `LpVariable.dicts` keyed by the item NAME
(`Food_Item` string), plus the two calorie-deviation slack variables. -/
inductive Var where
  | servings (item : String)
  | select (item : String)
  | caloriePlus
  | calorieMinus
deriving Repr, DecidableEq

/-- A linear expression: sum of coefficient·variable terms plus a
constant.  PuLP's `LpAffineExpression` accumulates coefficients of a
repeated variable; evaluation of the term list under an assignment has
exactly that semantics. -/
structure LinExpr where
  terms : List (ℚ × Var)
  const : ℚ
deriving Repr, DecidableEq

/-- Value of a linear expression under an assignment of the variables. -/
def LinExpr.eval (a : Var → ℚ) (e : LinExpr) : ℚ :=
  (e.terms.map (fun t => t.1 * a t.2)).sum + e.const

/-- A single-term expression `c·v`. -/
def LinExpr.single (c : ℚ) (v : Var) : LinExpr := ⟨[(c, v)], 0⟩

/-- A constant expression. -/
def LinExpr.ofConst (c : ℚ) : LinExpr := ⟨[], c⟩

/-- Comparison sense of a PuLP constraint (`<=`, `>=`, `==`). -/
inductive Cmp where
  | le
  | ge
  | eq
deriving Repr, DecidableEq

/-- A named PuLP constraint `lhs cmp rhs`. -/
structure Constraint where
  name : String
  lhs : LinExpr
  cmp : Cmp
  rhs : LinExpr
deriving Repr, DecidableEq

/-- An assignment satisfies a constraint. -/
def Constraint.holds (a : Var → ℚ) (c : Constraint) : Prop :=
  match c.cmp with
  | Cmp.le => c.lhs.eval a ≤ c.rhs.eval a
  | Cmp.ge => c.rhs.eval a ≤ c.lhs.eval a
  | Cmp.eq => c.lhs.eval a = c.rhs.eval a

instance (a : Var → ℚ) (c : Constraint) : Decidable (c.holds a) := by
  unfold Constraint.holds
  match c.cmp with
  | Cmp.le => exact inferInstance
  | Cmp.ge => exact inferInstance
  | Cmp.eq => exact inferInstance

/-! ## Solver adapter (`src/solver.py`) -/

/-- The status codes the external CBC engine can leave in
`model.status` after `model.solve` (PuLP's fixed status constants). -/
inductive SolverStatusCode where
  | notSolved
  | optimal
  | infeasible
  | unbounded
  | undefined
deriving Repr, DecidableEq

/-- The external PuLP library's fixed `LpStatus` table mapping a status
code to its display string (`"Not Solved"` is the rendering of the
`NotSolved` status). -/
def LpStatus : SolverStatusCode → String
  | SolverStatusCode.notSolved => "Not Solved"
  | SolverStatusCode.optimal => "Optimal"
  | SolverStatusCode.infeasible => "Infeasible"
  | SolverStatusCode.unbounded => "Unbounded"
  | SolverStatusCode.undefined => "Undefined"

/-- `solve_model` invokes the CBC solver (an external engine, modelled
here by the status code it reports) and returns `pulp.LpStatus[model.status]`.
It returns only the normalized status string: no plan is constructed or
substituted for any status. -/
def solve_model (engineResult : SolverStatusCode) : String :=
  LpStatus engineResult

/-- A row of the solution table built by `extract_solution`:
`["Food_Item", "Servings", "Quantity (grams)"]`. -/
structure SolRow where
  food_item : String
  servings : ℚ
  grams : ℚ
deriving Repr, DecidableEq

/-- `df.set_index("Food_Item")["Estimated_Serving_Weight_g"].to_dict()`:
a lookup from item name to serving weight.  With duplicate `Food_Item`
values the pandas dict keeps the LAST occurrence, hence the search over
the reversed row list. -/
def weightMap (df : List Row) (item : String) : Option ℚ :=
  (df.reverse.find? (fun r => r.food_item == item)).map Row.serving_weight

/-- `extract_solution` (src/solver.py): for each item of the ordered
item list, read the solved `servings` value (`None` when the solver
assigned no value); when present and strictly above the threshold, emit
a row `[item, servings, servings * w]` where `w` is the serving weight
from `weightMap`, falling back to `100.0` when the item is missing from
the lookup.  The Python default threshold is `1e-4`. -/
def extract_solution (df : List Row) (items : List String)
    (s : String → Option ℚ) (threshold : ℚ := 1/10000) : List SolRow :=
  items.filterMap fun item =>
    match s item with
    | some servings =>
      if threshold < servings then
        let w := (weightMap df item).getD 100
        some ⟨item, servings, servings * w⟩
      else
        none
    | none => none

/-! ## Evaluator (`src/analysis.py`)

`compute_totals` reads the catalog generically by column name (a column
may be absent), so for this module the catalog is modelled as a column
list plus rows mapping column names to values. -/

/-- A catalog row as seen by `compute_totals`: its `Food_Item` key and
its numeric value under any present column. -/
structure ARow where
  food_item : String
  val : String → ℚ

/-- The catalog dataframe as seen by `compute_totals`: the list of
column names actually present, and the rows. -/
structure ADataFrame where
  cols : List String
  rows : List ARow

/-- Columns of `solution_df.merge(df, on="Food_Item", how="left")`:
the solution table's own columns followed by the catalog's. -/
def mergedCols (df : ADataFrame) : List String :=
  ["Food_Item", "Servings", "Quantity (grams)"] ++ df.cols

/-- Rows of the left merge on `Food_Item`: each solution row is paired
with every matching catalog row, or with `none` (all-NaN catalog side)
when no catalog row matches. -/
def mergeRows (sol : List SolRow) (df : ADataFrame) :
    List (SolRow × Option ARow) :=
  sol.flatMap fun srow =>
    match df.rows.filter (fun r => r.food_item == srow.food_item) with
    | [] => [(srow, none)]
    | ms => ms.map (fun m => (srow, some m))

/-- The helper `total(col)` inside `compute_totals`: `0.0` when the
column is absent from the merged table, otherwise
`(merged[col] * merged["Servings"]).sum()`.  A row whose catalog side is
NaN (unmatched left-merge row) is skipped by the pandas sum, i.e.
contributes `0`. -/
def totalCol (df : ADataFrame) (sol : List SolRow) (col : String) : ℚ :=
  if col ∈ mergedCols df then
    ((mergeRows sol df).map fun p =>
      (p.2.map (fun r => r.val col)).getD 0 * p.1.servings).sum
  else 0

/-- The dictionary returned by `compute_totals`, one field per tracked
nutrient key. -/
structure Totals where
  calories : ℚ
  protein : ℚ
  fat : ℚ
  carbs : ℚ
  sugars : ℚ
  fiber : ℚ
  sodium : ℚ
deriving Repr, DecidableEq

/-- `compute_totals` (src/analysis.py): per-serving values times
servings, summed over the joined Solution-Catalog rows, for each of the
seven tracked nutrient columns. -/
def compute_totals (df : ADataFrame) (sol : List SolRow) : Totals :=
  { calories := totalCol df sol "Calories (kcal)"
    protein := totalCol df sol "Protein (g)"
    fat := totalCol df sol "Fat (g)"
    carbs := totalCol df sol "Carbohydrates (g)"
    sugars := totalCol df sol "Sugars (g)"
    fiber := totalCol df sol "Fiber (g)"
    sodium := totalCol df sol "Sodium (mg)" }

/-- The metrics dictionary returned by `evaluate_solution`: the totals
plus the four signed deviation/slack entries. -/
structure Metrics where
  totals : Totals
  calorieDeviation : ℚ
  proteinSlack : ℚ
  fatSlack : ℚ
  carbSlack : ℚ
deriving Repr, DecidableEq

/-- `evaluate_solution` (src/analysis.py): totals via `compute_totals`,
then
`Calorie Deviation = total - cal_target`,
`Protein Slack = total - protein_target`,
`Fat Slack = fat_target - total`,
`Carb Slack = carb_target - total`. -/
def evaluate_solution (df : ADataFrame) (sol : List SolRow)
    (cal_target protein_target fat_target carb_target : ℚ) : Metrics :=
  let totals := compute_totals df sol
  { totals := totals
    calorieDeviation := totals.calories - cal_target
    proteinSlack := totals.protein - protein_target
    fatSlack := fat_target - totals.fat
    carbSlack := carb_target - totals.carbs }

/-! ## Model builder (`src/model.py`) -/

/-- Characters kept verbatim by `safe_name`'s regex class `[A-Za-z0-9_]`. -/
def keepChar (c : Char) : Bool :=
  c.isAlphanum || c == '_'

/-- `re.sub(r'[^A-Za-z0-9_]+', '_', name)` on the character list: every
maximal run of characters outside `[A-Za-z0-9_]` collapses to a single
underscore.  The boolean state records whether the previous character
was part of a bad run whose underscore is already emitted. -/
def sanitizeAux : Bool → List Char → List Char
  | _, [] => []
  | inRun, c :: cs =>
    if keepChar c then
      c :: sanitizeAux false cs
    else if inRun then
      sanitizeAux true cs
    else
      '_' :: sanitizeAux true cs

/-- `re.sub(r'[^A-Za-z0-9_]+', '_', name)` on the character list. -/
def sanitizeChars (l : List Char) : List Char :=
  sanitizeAux false l

/-- `safe_name` (src/model.py): sanitize the item name and append the
row index so constraint names are unique. -/
def safe_name (name : String) (idx : Nat) : String :=
  String.mk (sanitizeChars name.data) ++ "_" ++ toString idx

/-- `NutritionTargets` (src/model.py): user nutrition goals plus model
tuning parameters, with the source's default values. -/
structure NutritionTargets where
  cal_target : ℚ
  protein_target : ℚ
  carb_target : ℚ
  fat_target : ℚ
  min_servings_per_item : ℚ := 1/2
  max_servings_per_item : ℚ := 3
  max_total_dishes : ℤ := 15
deriving Repr, DecidableEq

/-- `df["Food_Item"].tolist()`. -/
def itemsOf (df : List Row) : List String :=
  df.map Row.food_item

/-- `df[df["Meal_Type"] == meal]["Food_Item"].tolist()`. -/
def mealItems (df : List Row) (meal : String) : List String :=
  (df.filter (fun r => r.meal_type == meal)).map Row.food_item

/-- `pulp.lpSum(y[i] for i in l)`: the select indicators of a list of
item names, summed (with repetition, exactly as `lpSum` accumulates). -/
def sumSelect (l : List String) : LinExpr :=
  ⟨l.map (fun i => ((1 : ℚ), Var.select i)), 0⟩

/-- The per-item linking constraint
`s[item] <= targets.max_servings_per_item * y[item]`, named
`"MaxServings_" ++ safe_name item idx`. -/
def maxServingsCon (targets : NutritionTargets) (idx : Nat) (item : String) :
    Constraint :=
  ⟨"MaxServings_" ++ safe_name item idx,
    LinExpr.single 1 (Var.servings item), Cmp.le,
    LinExpr.single targets.max_servings_per_item (Var.select item)⟩

/-- The per-item linking constraint
`s[item] >= targets.min_servings_per_item * y[item]`, named
`"MinServings_" ++ safe_name item idx`. -/
def minServingsCon (targets : NutritionTargets) (idx : Nat) (item : String) :
    Constraint :=
  ⟨"MinServings_" ++ safe_name item idx,
    LinExpr.single 1 (Var.servings item), Cmp.ge,
    LinExpr.single targets.min_servings_per_item (Var.select item)⟩

/-- The `for idx, item in enumerate(items)` loop emitting the two
linking constraints per item occurrence. -/
def linkingConstraints (targets : NutritionTargets) (items : List String) :
    List Constraint :=
  items.enum.flatMap fun p =>
    [maxServingsCon targets p.1 p.2, minServingsCon targets p.1 p.2]

/-- `pulp.lpSum(y[i] for i in items) <= targets.max_total_dishes`. -/
def dishCapCon (targets : NutritionTargets) (items : List String) :
    Constraint :=
  ⟨"Max_Total_Dishes", sumSelect items, Cmp.le,
    LinExpr.ofConst (targets.max_total_dishes : ℚ)⟩

/-- `pulp.lpSum(y[i] for i in meal_items) >= 2`, named `MinItems_{meal}`. -/
def mealMinCon (df : List Row) (meal : String) : Constraint :=
  ⟨"MinItems_" ++ meal, sumSelect (mealItems df meal), Cmp.ge,
    LinExpr.ofConst 2⟩

/-- `pulp.lpSum(y[i] for i in meal_items) <= 3`, named `MaxItems_{meal}`. -/
def mealMaxCon (df : List Row) (meal : String) : Constraint :=
  ⟨"MaxItems_" ++ meal, sumSelect (mealItems df meal), Cmp.le,
    LinExpr.ofConst 3⟩

/-- `pulp.lpSum(y[i] for i in snack_items) == 1`, named `ExactItems_Snack`. -/
def snackCon (df : List Row) : Constraint :=
  ⟨"ExactItems_Snack", sumSelect (mealItems df "Snack"), Cmp.eq,
    LinExpr.ofConst 1⟩

/-- The meal-variety loop over `["Breakfast", "Lunch", "Dinner"]`: when a
meal has at least 2 catalog items, require between 2 and 3 selected
items in it; otherwise emit nothing. -/
def mealVarietyConstraints (df : List Row) : List Constraint :=
  ["Breakfast", "Lunch", "Dinner"].flatMap fun meal =>
    if 2 ≤ (mealItems df meal).length then
      [mealMinCon df meal, mealMaxCon df meal]
    else
      []

/-- The snack-exactness block: when at least one snack item exists,
require exactly one selected snack item; otherwise emit nothing. -/
def snackConstraints (df : List Row) : List Constraint :=
  if 1 ≤ (mealItems df "Snack").length then
    [snackCon df]
  else
    []

/-- The left side of every global nutrition constraint:
`lpSum(nutrient_i * s[Food_Item_i] for i in df.index)`. -/
def nutrientSum (df : List Row) (f : Row → ℚ) : LinExpr :=
  ⟨df.map (fun r => (f r, Var.servings r.food_item)), 0⟩

/-- `Calorie_Balance`: total calories `== cal_target + s_plus - s_minus`. -/
def calorieBalanceCon (df : List Row) (targets : NutritionTargets) :
    Constraint :=
  ⟨"Calorie_Balance", nutrientSum df Row.calories, Cmp.eq,
    ⟨[((1 : ℚ), Var.caloriePlus), ((-1 : ℚ), Var.calorieMinus)],
      targets.cal_target⟩⟩

/-- `Protein_Min`: total protein `>= protein_target`. -/
def proteinMinCon (df : List Row) (targets : NutritionTargets) :
    Constraint :=
  ⟨"Protein_Min", nutrientSum df Row.protein, Cmp.ge,
    LinExpr.ofConst targets.protein_target⟩

/-- `Fat_Max`: total fat `<= fat_target`. -/
def fatMaxCon (df : List Row) (targets : NutritionTargets) : Constraint :=
  ⟨"Fat_Max", nutrientSum df Row.fat, Cmp.le,
    LinExpr.ofConst targets.fat_target⟩

/-- `Carb_Max`: total carbohydrates `<= carb_target`. -/
def carbMaxCon (df : List Row) (targets : NutritionTargets) : Constraint :=
  ⟨"Carb_Max", nutrientSum df Row.carbs, Cmp.le,
    LinExpr.ofConst targets.carb_target⟩

/-- The objective expression
`s_plus + s_minus + 0.001 * lpSum(s[item] for item in items)`. -/
def objectiveExpr (items : List String) : LinExpr :=
  ⟨((1 : ℚ), Var.caloriePlus) :: ((1 : ℚ), Var.calorieMinus) ::
    items.map (fun i => ((1/1000 : ℚ), Var.servings i)), 0⟩

/-- The optimization sense of the `LpProblem`. -/
inductive Sense where
  | minimize
  | maximize
deriving Repr, DecidableEq

/-- Everything `build_diet_model` returns: the program (sense, objective
and constraint list) together with the variable dictionaries
`s`/`y` (keyed by item NAME, as `LpVariable.dicts` builds them) and the
ordered item list. -/
structure BuildOutput where
  sense : Sense
  objective : LinExpr
  constraints : List Constraint
  svar : String → Var
  yvar : String → Var
  items : List String

/-- `build_diet_model` (src/model.py): the full deterministic
construction, with constraints listed in the order the source adds
them. -/
def build_diet_model (df : List Row) (targets : NutritionTargets) :
    BuildOutput :=
  let items := itemsOf df
  { sense := Sense.minimize
    objective := objectiveExpr items
    constraints :=
      linkingConstraints targets items
        ++ [dishCapCon targets items]
        ++ mealVarietyConstraints df
        ++ snackConstraints df
        ++ [calorieBalanceCon df targets, proteinMinCon df targets,
            fatMaxCon df targets, carbMaxCon df targets]
    svar := Var.servings
    yvar := Var.select
    items := items }

/-- The variable-domain facts declared when the variables are created:
`servings` has `lowBound=0`, `select` is `Binary` (value 0 or 1), and
both calorie slacks have `lowBound=0`. -/
def varBounds (items : List String) (a : Var → ℚ) : Prop :=
  (∀ i ∈ items, 0 ≤ a (Var.servings i)) ∧
  (∀ i ∈ items, a (Var.select i) = 0 ∨ a (Var.select i) = 1) ∧
  0 ≤ a Var.caloriePlus ∧ 0 ≤ a Var.calorieMinus

/-! ## Concrete inputs used by the witness theorems -/

/-- A small catalog: two breakfast items, one lunch, one dinner, one
snack. -/
def dfW : List Row :=
  [⟨"A", "Breakfast", 200, 10, 5, 20, 50⟩,
   ⟨"B", "Breakfast", 300, 15, 8, 30, 80⟩,
   ⟨"C", "Lunch", 400, 20, 10, 40, 120⟩,
   ⟨"D", "Dinner", 500, 25, 12, 50, 150⟩,
   ⟨"E", "Snack", 100, 5, 2, 10, 30⟩]

/-- A one-row catalog. -/
def dfA : List Row :=
  [⟨"A", "Breakfast", 200, 10, 5, 20, 50⟩]

/-- A catalog where the same `Food_Item` name occurs under two
different meal types. -/
def dfDup : List Row :=
  [⟨"A", "Breakfast", 200, 10, 5, 20, 50⟩,
   ⟨"A", "Snack", 100, 5, 2, 10, 30⟩]

/-- Targets used by the witnesses (source defaults for the tuning
parameters). -/
def tW : NutritionTargets :=
  { cal_target := 500, protein_target := 20, carb_target := 60,
    fat_target := 20 }

/-- A solved-variable map with one value above, one exactly at, and one
missing the default threshold. -/
def sW : String → Option ℚ := fun i =>
  if i = "A" then some (2/10000)
  else if i = "B" then some (1/10000)
  else none

/-- An assignment that satisfies every constraint of
`build_diet_model dfA tW`: two servings of the single item, select = 1,
and the calorie slacks absorbing the 100 kcal shortfall. -/
def aW : Var → ℚ := fun v =>
  match v with
  | Var.servings _ => 2
  | Var.select _ => 1
  | Var.caloriePlus => 0
  | Var.calorieMinus => 100

/-! ## Helper lemmas -/

@[simp] theorem LinExpr.eval_single (a : Var → ℚ) (c : ℚ) (v : Var) :
    LinExpr.eval a (LinExpr.single c v) = c * a v := by
  simp [LinExpr.eval, LinExpr.single]

@[simp] theorem LinExpr.eval_ofConst (a : Var → ℚ) (c : ℚ) :
    LinExpr.eval a (LinExpr.ofConst c) = c := by
  simp [LinExpr.eval, LinExpr.ofConst]

/-- The item names of the emitted solution rows are the filter of the
ordered item list by the present-and-above-threshold test. -/
theorem extract_solution_names (df : List Row) (items : List String)
    (s : String → Option ℚ) (t : ℚ) :
    (extract_solution df items s t).map SolRow.food_item
      = items.filter fun i =>
          match s i with
          | some v => decide (t < v)
          | none => false := by
  induction items with
  | nil => rfl
  | cons hd tl ih =>
    cases h : s hd with
    | none =>
      simp [extract_solution, List.filterMap_cons, List.filter_cons, h] at ih ⊢
      exact ih
    | some v =>
      by_cases hv : t < v
      · simp [extract_solution, List.filterMap_cons, List.filter_cons, h,
          hv] at ih ⊢
        exact ih
      · simp [extract_solution, List.filterMap_cons, List.filter_cons, h,
          hv] at ih ⊢
        exact ih

/-- Membership in the extracted solution, unfolded. -/
theorem mem_extract_solution {df : List Row} {items : List String}
    {s : String → Option ℚ} {t : ℚ} {r : SolRow} :
    r ∈ extract_solution df items s t ↔
      ∃ i ∈ items, ∃ v, s i = some v ∧ t < v ∧
        r = ⟨i, v, v * ((weightMap df i).getD 100)⟩ := by
  unfold extract_solution
  rw [List.mem_filterMap]
  constructor
  · rintro ⟨i, hi, hf⟩
    cases h : s i with
    | none => rw [h] at hf; exact absurd hf (by simp)
    | some v =>
      rw [h] at hf
      dsimp only at hf
      by_cases hv : t < v
      · rw [if_pos hv] at hf
        exact ⟨i, hi, v, h, hv, (Option.some_inj.mp hf).symm⟩
      · rw [if_neg hv] at hf
        exact absurd hf (by simp)
  · rintro ⟨i, hi, v, hs, hv, rfl⟩
    refine ⟨i, hi, ?_⟩
    rw [hs]
    dsimp only
    rw [if_pos hv]

/-- The constraint list of the built model, decomposed into the blocks
the source adds in order. -/
theorem build_constraints_eq (df : List Row) (targets : NutritionTargets) :
    (build_diet_model df targets).constraints =
      linkingConstraints targets (itemsOf df)
        ++ [dishCapCon targets (itemsOf df)]
        ++ mealVarietyConstraints df
        ++ snackConstraints df
        ++ [calorieBalanceCon df targets, proteinMinCon df targets,
            fatMaxCon df targets, carbMaxCon df targets] := rfl

/-- Every list member appears in its enumeration (from any start). -/
theorem exists_mem_enumFrom {α : Type} {x : α} :
    ∀ (l : List α) (n : ℕ), x ∈ l → ∃ k, (k, x) ∈ l.enumFrom n := by
  intro l
  induction l with
  | nil => intro n h; exact absurd h (List.not_mem_nil x)
  | cons a t ih =>
    intro n h
    rcases List.mem_cons.mp h with rfl | h'
    · exact ⟨n, by simp [List.enumFrom]⟩
    · obtain ⟨k, hk⟩ := ih (n + 1) h'
      exact ⟨k, by simp [List.enumFrom, hk]⟩

/-- Each item of the item list gets its pair of linking constraints (at
its enumeration index). -/
theorem linking_mem (targets : NutritionTargets) {items : List String}
    {item : String} (h : item ∈ items) :
    ∃ idx,
      maxServingsCon targets idx item ∈ linkingConstraints targets items ∧
      minServingsCon targets idx item ∈ linkingConstraints targets items := by
  obtain ⟨k, hk⟩ := exists_mem_enumFrom items 0 h
  refine ⟨k, ?_, ?_⟩ <;>
    · unfold linkingConstraints
      rw [List.mem_flatMap]
      exact ⟨(k, item), hk, by simp⟩

/-- Membership in the built constraint list, case-split by block. -/
theorem mem_build_constraints_iff (df : List Row)
    (targets : NutritionTargets) (c : Constraint) :
    c ∈ (build_diet_model df targets).constraints ↔
      c ∈ linkingConstraints targets (itemsOf df) ∨
      c = dishCapCon targets (itemsOf df) ∨
      c ∈ mealVarietyConstraints df ∨
      c ∈ snackConstraints df ∨
      c = calorieBalanceCon df targets ∨
      c = proteinMinCon df targets ∨
      c = fatMaxCon df targets ∨
      c = carbMaxCon df targets := by
  rw [build_constraints_eq]
  simp [List.mem_append, or_assoc]

/-- Every linking constraint has a one-term right-hand side. -/
theorem rhs_terms_linking {targets : NutritionTargets}
    {items : List String} {c : Constraint}
    (h : c ∈ linkingConstraints targets items) :
    ∃ q v, c.rhs.terms = [(q, v)] := by
  unfold linkingConstraints at h
  rw [List.mem_flatMap] at h
  obtain ⟨p, _, hp⟩ := h
  simp only [List.mem_cons, List.not_mem_nil, or_false] at hp
  rcases hp with rfl | rfl
  · exact ⟨_, _, rfl⟩
  · exact ⟨_, _, rfl⟩

/-- A constraint whose right-hand side is a constant expression is never
one of the linking constraints. -/
theorem not_mem_linking_ofConst {targets : NutritionTargets}
    {items : List String} {name : String} {lhs : LinExpr} {cmp : Cmp}
    {k : ℚ} :
    (⟨name, lhs, cmp, LinExpr.ofConst k⟩ : Constraint) ∉
      linkingConstraints targets items := by
  intro h
  obtain ⟨q, v, hq⟩ := rhs_terms_linking h
  simp [LinExpr.ofConst] at hq

/-- Membership in the meal-variety block. -/
theorem mem_mealVariety_iff (df : List Row) (c : Constraint) :
    c ∈ mealVarietyConstraints df ↔
      ∃ meal, meal ∈ (["Breakfast", "Lunch", "Dinner"] : List String) ∧
        2 ≤ (mealItems df meal).length ∧
        (c = mealMinCon df meal ∨ c = mealMaxCon df meal) := by
  unfold mealVarietyConstraints
  rw [List.mem_flatMap]
  constructor
  · rintro ⟨meal, hm, hc⟩
    by_cases h2 : 2 ≤ (mealItems df meal).length
    · rw [if_pos h2] at hc
      simp only [List.mem_cons, List.not_mem_nil, or_false] at hc
      exact ⟨meal, hm, h2, hc⟩
    · rw [if_neg h2] at hc
      exact absurd hc (List.not_mem_nil c)
  · rintro ⟨meal, hm, h2, hc⟩
    refine ⟨meal, hm, ?_⟩
    rw [if_pos h2]
    rcases hc with rfl | rfl
    · exact List.mem_cons_self _ _
    · exact List.mem_cons_of_mem _ (List.mem_cons_self _ _)

/-- Membership in the snack block. -/
theorem mem_snack_iff (df : List Row) (c : Constraint) :
    c ∈ snackConstraints df ↔
      1 ≤ (mealItems df "Snack").length ∧ c = snackCon df := by
  unfold snackConstraints
  by_cases h : 1 ≤ (mealItems df "Snack").length
  · rw [if_pos h]; simp [h]
  · rw [if_neg h]; simp [h]

/-! ## Claim theorems -/

/-- C4: for every solved servings-variable map, ordered item list and
threshold, `extract_solution` emits exactly those items whose solved
value is present and strictly greater than the threshold, in the order
of the original item list; an item whose solved value equals the
threshold exactly is excluded. -/
theorem extract_solution_emits_exactly_above_threshold (df : List Row)
    (items : List String) (s : String → Option ℚ) (t : ℚ) :
    ((extract_solution df items s t).map SolRow.food_item
      = items.filter fun i =>
          match s i with
          | some v => decide (t < v)
          | none => false) ∧
    ∀ i, s i = some t →
      i ∉ (extract_solution df items s t).map SolRow.food_item := by
  refine ⟨extract_solution_names df items s t, ?_⟩
  intro i hi hmem
  rw [extract_solution_names] at hmem
  have hp := List.of_mem_filter hmem
  rw [hi] at hp
  simp at hp

/-- Witness for C4 on a concrete run: item `"A"` (solved `2e-4`) is
emitted, item `"B"` (solved exactly `1e-4`) and item `"C"` (no solved
value) are not. -/
theorem extract_solution_emits_exactly_above_threshold_witness :
    ((extract_solution [] ["A", "B", "C"] sW (1/10000)).map SolRow.food_item
      = ["A", "B", "C"].filter fun i =>
          match sW i with
          | some v => decide ((1/10000 : ℚ) < v)
          | none => false) ∧
    "B" ∉ (extract_solution [] ["A", "B", "C"] sW (1/10000)).map
        SolRow.food_item := by
  have h := extract_solution_emits_exactly_above_threshold []
    ["A", "B", "C"] sW (1/10000)
  exact ⟨h.1, h.2 "B" (by simp [sW])⟩

/-- C5: every emitted row has servings strictly above the threshold and
grams equal to servings times the looked-up serving weight exactly, so
dividing grams by that (nonzero) weight recovers the servings value. -/
theorem extract_solution_row_guarantee (df : List Row)
    (items : List String) (s : String → Option ℚ) (t : ℚ) :
    ∀ r ∈ extract_solution df items s t,
      t < r.servings ∧
      r.grams = r.servings * ((weightMap df r.food_item).getD 100) ∧
      ((weightMap df r.food_item).getD 100 ≠ 0 →
        r.grams / ((weightMap df r.food_item).getD 100) = r.servings) := by
  intro r hr
  obtain ⟨i, _, v, _, hv, rfl⟩ := mem_extract_solution.mp hr
  exact ⟨hv, rfl, fun hw => mul_div_cancel_right₀ v hw⟩

/-- Witness for C5: the row for item `"A"` of `dfA` (2 servings of
weight 50, hence 100 grams). -/
theorem extract_solution_row_guarantee_witness :
    ((⟨"A", 2, 100⟩ : SolRow) ∈
      extract_solution dfA ["A"] (fun _ => some 2) (1/10000)) ∧
    ((1/10000 : ℚ) < SolRow.servings ⟨"A", 2, 100⟩ ∧
      SolRow.grams ⟨"A", 2, 100⟩ =
        SolRow.servings ⟨"A", 2, 100⟩ *
          ((weightMap dfA (SolRow.food_item ⟨"A", 2, 100⟩)).getD 100) ∧
      ((weightMap dfA (SolRow.food_item ⟨"A", 2, 100⟩)).getD 100 ≠ 0 →
        SolRow.grams ⟨"A", 2, 100⟩ /
            ((weightMap dfA (SolRow.food_item ⟨"A", 2, 100⟩)).getD 100)
          = SolRow.servings ⟨"A", 2, 100⟩)) := by
  have hmem : (⟨"A", 2, 100⟩ : SolRow) ∈
      extract_solution dfA ["A"] (fun _ => some 2) (1/10000) := by
    simp [extract_solution, dfA, weightMap]
    norm_num
  exact ⟨hmem, extract_solution_row_guarantee dfA ["A"]
    (fun _ => some 2) (1/10000) ⟨"A", 2, 100⟩ hmem⟩

/-- C8: an emitted item with no serving-weight entry in the catalog
lookup gets grams computed from the fixed default weight `100.0`; the
missing weight never makes `extract_solution` fail (the function is
total by construction). -/
theorem extract_solution_missing_weight_default (df : List Row)
    (items : List String) (s : String → Option ℚ) (t : ℚ) :
    ∀ r ∈ extract_solution df items s t,
      weightMap df r.food_item = none → r.grams = r.servings * 100 := by
  intro r hr hw
  obtain ⟨i, _, v, _, _, rfl⟩ := mem_extract_solution.mp hr
  simp only at hw ⊢
  rw [hw]
  rfl

/-- Witness for C8: item `"X"` is absent from `dfA`, so its row carries
`1 * 100 = 100` grams. -/
theorem extract_solution_missing_weight_default_witness :
    ((⟨"X", 1, 100⟩ : SolRow) ∈
      extract_solution dfA ["X"] (fun _ => some 1) (1/10000)) ∧
    weightMap dfA (SolRow.food_item ⟨"X", 1, 100⟩) = none ∧
    SolRow.grams ⟨"X", 1, 100⟩ = SolRow.servings ⟨"X", 1, 100⟩ * 100 := by
  have hmem : (⟨"X", 1, 100⟩ : SolRow) ∈
      extract_solution dfA ["X"] (fun _ => some 1) (1/10000) := by
    simp [extract_solution, dfA, weightMap]
    norm_num
  have hw : weightMap dfA (SolRow.food_item ⟨"X", 1, 100⟩) = none := by
    simp [weightMap, dfA]
  exact ⟨hmem, hw, extract_solution_missing_weight_default dfA ["X"]
    (fun _ => some 1) (1/10000) ⟨"X", 1, 100⟩ hmem hw⟩

/-- C9: `solve_model` returns the normalization of the engine status
through PuLP's fixed `LpStatus` table, hence always one of the five
vocabulary strings (`NotSolved` rendered `"Not Solved"`), and returns
nothing but that status — no default plan is substituted for a
non-Optimal status. -/
theorem solve_model_status_vocabulary :
    ∀ c : SolverStatusCode,
      solve_model c ∈
        ["Optimal", "Infeasible", "Unbounded", "Not Solved", "Undefined"] ∧
      solve_model c = LpStatus c := by
  intro c
  cases c <;> simp [solve_model, LpStatus]

/-- C6: `evaluate_solution` reports the calorie deviation as
`total - target` (signed, no clamping), the protein slack as
`total - target` (possibly negative), the fat slack as
`target - total`, and the carb slack as `target - total`. -/
theorem evaluate_solution_signed_metrics (df : ADataFrame)
    (sol : List SolRow) (cal_target protein_target fat_target carb_target : ℚ) :
    (evaluate_solution df sol cal_target protein_target fat_target
        carb_target).calorieDeviation
      = (compute_totals df sol).calories - cal_target ∧
    (evaluate_solution df sol cal_target protein_target fat_target
        carb_target).proteinSlack
      = (compute_totals df sol).protein - protein_target ∧
    (evaluate_solution df sol cal_target protein_target fat_target
        carb_target).fatSlack
      = fat_target - (compute_totals df sol).fat ∧
    (evaluate_solution df sol cal_target protein_target fat_target
        carb_target).carbSlack
      = carb_target - (compute_totals df sol).carbs :=
  ⟨rfl, rfl, rfl, rfl⟩

/-- C7: `compute_totals` is total: a tracked nutrient whose column is
absent from the joined table contributes `0` to the totals, and on the
empty solution table every total is `0`. -/
theorem compute_totals_absent_column_and_empty (df : ADataFrame)
    (sol : List SolRow) :
    (∀ col, col ∉ mergedCols df → totalCol df sol col = 0) ∧
    compute_totals df [] = ⟨0, 0, 0, 0, 0, 0, 0⟩ := by
  constructor
  · intro col h
    simp [totalCol, h]
  · simp [compute_totals, totalCol, mergeRows]

/-- Witness for C7: a catalog carrying only a calories column — the
`"Sugars (g)"` column is absent and totals to `0`, and the empty
solution table gives the all-zero totals. -/
theorem compute_totals_absent_column_and_empty_witness :
    ("Sugars (g)" ∉
      mergedCols ⟨["Calories (kcal)"], [⟨"A", fun _ => 200⟩]⟩) ∧
    totalCol ⟨["Calories (kcal)"], [⟨"A", fun _ => 200⟩]⟩ [⟨"A", 2, 100⟩]
        "Sugars (g)" = 0 ∧
    compute_totals ⟨["Calories (kcal)"], [⟨"A", fun _ => 200⟩]⟩ []
      = ⟨0, 0, 0, 0, 0, 0, 0⟩ := by
  have habs : "Sugars (g)" ∉
      mergedCols ⟨["Calories (kcal)"], [⟨"A", fun _ => 200⟩]⟩ := by
    simp [mergedCols]
  have h := compute_totals_absent_column_and_empty
    ⟨["Calories (kcal)"], [⟨"A", fun _ => 200⟩]⟩ [⟨"A", 2, 100⟩]
  exact ⟨habs, h.1 _ habs, (compute_totals_absent_column_and_empty
    ⟨["Calories (kcal)"], [⟨"A", fun _ => 200⟩]⟩ []).2⟩

/-- C3: the objective of the built program is
`calorie_plus + calorie_minus + 0.001 * (sum of all servings variables)`,
minimized. -/
theorem objective_is_deviation_plus_servings_penalty (df : List Row)
    (targets : NutritionTargets) (a : Var → ℚ) :
    (build_diet_model df targets).sense = Sense.minimize ∧
    LinExpr.eval a (build_diet_model df targets).objective
      = a Var.caloriePlus + a Var.calorieMinus
        + (1/1000)
          * ((build_diet_model df targets).items.map
              (fun i => a (Var.servings i))).sum := by
  refine ⟨rfl, ?_⟩
  show LinExpr.eval a (objectiveExpr (itemsOf df)) = _
  simp only [LinExpr.eval, objectiveExpr, List.map_cons, List.sum_cons,
    List.map_map, Function.comp_def, one_mul, add_zero]
  rw [List.sum_map_mul_left]
  show _ = _ + (1/1000) * ((itemsOf df).map fun i => a (Var.servings i)).sum
  ring

/-- C1: in every assignment with binary select values that satisfies
all constraints of the built program (given
`0 ≤ min_servings_per_item ≤ max_servings_per_item`), for every item:
`selected = 0` forces `servings = 0`, and `servings > 0` forces
`selected = 1` and
`min_servings_per_item ≤ servings ≤ max_servings_per_item`. -/
theorem linking_constraints_invariant (df : List Row)
    (targets : NutritionTargets) (a : Var → ℚ)
    (hbin : ∀ i ∈ (build_diet_model df targets).items,
      a (Var.select i) = 0 ∨ a (Var.select i) = 1)
    (hmin0 : 0 ≤ targets.min_servings_per_item)
    (hminmax : targets.min_servings_per_item ≤ targets.max_servings_per_item)
    (hsat : ∀ c ∈ (build_diet_model df targets).constraints, c.holds a) :
    ∀ item ∈ (build_diet_model df targets).items,
      (a (Var.select item) = 0 → a (Var.servings item) = 0) ∧
      (0 < a (Var.servings item) →
        a (Var.select item) = 1 ∧
        targets.min_servings_per_item ≤ a (Var.servings item) ∧
        a (Var.servings item) ≤ targets.max_servings_per_item) := by
  intro item hitem
  obtain ⟨idx, hmaxmem, hminmem⟩ := linking_mem targets hitem
  have hmax := hsat _ (by
    rw [build_constraints_eq]
    simp only [List.mem_append]
    exact Or.inl (Or.inl (Or.inl (Or.inl hmaxmem))))
  have hmin := hsat _ (by
    rw [build_constraints_eq]
    simp only [List.mem_append]
    exact Or.inl (Or.inl (Or.inl (Or.inl hminmem))))
  simp only [Constraint.holds, maxServingsCon, minServingsCon,
    LinExpr.eval_single, one_mul] at hmax hmin
  constructor
  · intro h0
    rw [h0, mul_zero] at hmax hmin
    exact le_antisymm hmax hmin
  · intro hpos
    rcases hbin item hitem with h0 | h1
    · rw [h0, mul_zero] at hmax hmin
      have hz : a (Var.servings item) = 0 := le_antisymm hmax hmin
      rw [hz] at hpos
      exact absurd hpos (lt_irrefl 0)
    · rw [h1, mul_one] at hmax hmin
      exact ⟨h1, hmin, hmax⟩

/-- Witness for C1: the assignment `aW` (2 servings of the sole item of
`dfA`, select = 1, slacks 0/100) satisfies every emitted constraint, and
the invariant holds at item `"A"`. -/
theorem linking_constraints_invariant_witness :
    (∀ i ∈ (build_diet_model dfA tW).items,
      aW (Var.select i) = 0 ∨ aW (Var.select i) = 1) ∧
    (0 : ℚ) ≤ tW.min_servings_per_item ∧
    tW.min_servings_per_item ≤ tW.max_servings_per_item ∧
    (∀ c ∈ (build_diet_model dfA tW).constraints, c.holds aW) ∧
    ((aW (Var.select "A") = 0 → aW (Var.servings "A") = 0) ∧
      (0 < aW (Var.servings "A") →
        aW (Var.select "A") = 1 ∧
        tW.min_servings_per_item ≤ aW (Var.servings "A") ∧
        aW (Var.servings "A") ≤ tW.max_servings_per_item)) := by
  have hbin : ∀ i ∈ (build_diet_model dfA tW).items,
      aW (Var.select i) = 0 ∨ aW (Var.select i) = 1 :=
    fun i _ => Or.inr rfl
  have hmin0 : (0 : ℚ) ≤ tW.min_servings_per_item := by norm_num [tW]
  have hminmax : tW.min_servings_per_item ≤ tW.max_servings_per_item := by
    norm_num [tW]
  have heq : (build_diet_model dfA tW).constraints =
      [maxServingsCon tW 0 "A", minServingsCon tW 0 "A",
       dishCapCon tW ["A"],
       calorieBalanceCon dfA tW, proteinMinCon dfA tW, fatMaxCon dfA tW,
       carbMaxCon dfA tW] := rfl
  have hsat : ∀ c ∈ (build_diet_model dfA tW).constraints, c.holds aW := by
    intro c hc
    rw [heq] at hc
    simp only [List.mem_cons, List.not_mem_nil, or_false] at hc
    rcases hc with rfl | rfl | rfl | rfl | rfl | rfl | rfl <;>
      norm_num [Constraint.holds, maxServingsCon, minServingsCon,
        dishCapCon, calorieBalanceCon, proteinMinCon, fatMaxCon,
        carbMaxCon, LinExpr.eval, LinExpr.single, LinExpr.ofConst,
        sumSelect, nutrientSum, aW, dfA, tW, itemsOf]
  have hmem : "A" ∈ (build_diet_model dfA tW).items := by
    simp [build_diet_model, itemsOf, dfA]
  exact ⟨hbin, hmin0, hminmax, hsat,
    linking_constraints_invariant dfA tW aW hbin hmin0 hminmax hsat
      "A" hmem⟩

/-- C2: the built model contains the meal-variety pair (`MinItems` /
`MaxItems`, i.e. sum of selected ≥ 2 and ≤ 3) for a meal type in
{Breakfast, Lunch, Dinner} iff that meal has at least 2 catalog items,
and the snack equality constraint iff at least one snack item exists; a
meal with zero rows therefore produces no such constraint (and the
construction is a total function — it never fails). -/
theorem meal_variety_emission_iff (df : List Row)
    (targets : NutritionTargets) :
    (∀ meal ∈ (["Breakfast", "Lunch", "Dinner"] : List String),
      (mealMinCon df meal ∈ (build_diet_model df targets).constraints ↔
        2 ≤ (mealItems df meal).length) ∧
      (mealMaxCon df meal ∈ (build_diet_model df targets).constraints ↔
        2 ≤ (mealItems df meal).length)) ∧
    (snackCon df ∈ (build_diet_model df targets).constraints ↔
      1 ≤ (mealItems df "Snack").length) := by
  constructor
  · intro meal hmeal
    simp only [List.mem_cons, List.not_mem_nil, or_false] at hmeal
    rcases hmeal with rfl | rfl | rfl <;>
    · constructor <;>
      · constructor
        · intro hmem
          rcases (mem_build_constraints_iff df targets _).mp hmem with
            h | h | h | h | h | h | h | h
          · exact absurd h not_mem_linking_ofConst
          · exact absurd (congrArg Constraint.name h) (by simp [mealMinCon, mealMaxCon, snackCon, dishCapCon,
                calorieBalanceCon, proteinMinCon, fatMaxCon, carbMaxCon])
          · obtain ⟨meal', hm', h2', hc⟩ := (mem_mealVariety_iff df _).mp h
            simp only [List.mem_cons, List.not_mem_nil, or_false] at hm'
            rcases hm' with rfl | rfl | rfl <;> rcases hc with hc | hc <;>
              first
                | exact h2'
                | exact absurd (congrArg Constraint.name hc) (by simp [mealMinCon, mealMaxCon, snackCon, dishCapCon,
                calorieBalanceCon, proteinMinCon, fatMaxCon, carbMaxCon])
          · rw [mem_snack_iff] at h
            exact absurd (congrArg Constraint.name h.2) (by simp [mealMinCon, mealMaxCon, snackCon, dishCapCon,
                calorieBalanceCon, proteinMinCon, fatMaxCon, carbMaxCon])
          · exact absurd (congrArg Constraint.name h) (by simp [mealMinCon, mealMaxCon, snackCon, dishCapCon,
                calorieBalanceCon, proteinMinCon, fatMaxCon, carbMaxCon])
          · exact absurd (congrArg Constraint.name h) (by simp [mealMinCon, mealMaxCon, snackCon, dishCapCon,
                calorieBalanceCon, proteinMinCon, fatMaxCon, carbMaxCon])
          · exact absurd (congrArg Constraint.name h) (by simp [mealMinCon, mealMaxCon, snackCon, dishCapCon,
                calorieBalanceCon, proteinMinCon, fatMaxCon, carbMaxCon])
          · exact absurd (congrArg Constraint.name h) (by simp [mealMinCon, mealMaxCon, snackCon, dishCapCon,
                calorieBalanceCon, proteinMinCon, fatMaxCon, carbMaxCon])
        · intro h2
          refine (mem_build_constraints_iff df targets _).mpr
            (Or.inr (Or.inr (Or.inl ?_)))
          refine (mem_mealVariety_iff df _).mpr ⟨_, by simp, h2, ?_⟩
          first
            | exact Or.inl rfl
            | exact Or.inr rfl
  · constructor
    · intro hmem
      rcases (mem_build_constraints_iff df targets _).mp hmem with
        h | h | h | h | h | h | h | h
      · exact absurd h not_mem_linking_ofConst
      · exact absurd (congrArg Constraint.name h) (by simp [mealMinCon, mealMaxCon, snackCon, dishCapCon,
                calorieBalanceCon, proteinMinCon, fatMaxCon, carbMaxCon])
      · obtain ⟨meal', hm', h2', hc⟩ := (mem_mealVariety_iff df _).mp h
        simp only [List.mem_cons, List.not_mem_nil, or_false] at hm'
        rcases hm' with rfl | rfl | rfl <;> rcases hc with hc | hc <;>
          exact absurd (congrArg Constraint.name hc) (by simp [mealMinCon, mealMaxCon, snackCon, dishCapCon,
                calorieBalanceCon, proteinMinCon, fatMaxCon, carbMaxCon])
      · exact ((mem_snack_iff df _).mp h).1
      · exact absurd (congrArg Constraint.name h) (by simp [mealMinCon, mealMaxCon, snackCon, dishCapCon,
                calorieBalanceCon, proteinMinCon, fatMaxCon, carbMaxCon])
      · exact absurd (congrArg Constraint.name h) (by simp [mealMinCon, mealMaxCon, snackCon, dishCapCon,
                calorieBalanceCon, proteinMinCon, fatMaxCon, carbMaxCon])
      · exact absurd (congrArg Constraint.name h) (by simp [mealMinCon, mealMaxCon, snackCon, dishCapCon,
                calorieBalanceCon, proteinMinCon, fatMaxCon, carbMaxCon])
      · exact absurd (congrArg Constraint.name h) (by simp [mealMinCon, mealMaxCon, snackCon, dishCapCon,
                calorieBalanceCon, proteinMinCon, fatMaxCon, carbMaxCon])
    · intro h1
      refine (mem_build_constraints_iff df targets _).mpr
        (Or.inr (Or.inr (Or.inr (Or.inl ?_))))
      exact (mem_snack_iff df _).mpr ⟨h1, rfl⟩

/-- Witness for C2: in `dfW` (two breakfast items, one snack) the
breakfast variety pair is emitted (2 ≤ 2) and the snack equality is
emitted (1 ≤ 1). -/
theorem meal_variety_emission_iff_witness :
    ("Breakfast" ∈ (["Breakfast", "Lunch", "Dinner"] : List String)) ∧
    ((mealMinCon dfW "Breakfast" ∈ (build_diet_model dfW tW).constraints ↔
        2 ≤ (mealItems dfW "Breakfast").length) ∧
      (mealMaxCon dfW "Breakfast" ∈ (build_diet_model dfW tW).constraints ↔
        2 ≤ (mealItems dfW "Breakfast").length)) ∧
    (snackCon dfW ∈ (build_diet_model dfW tW).constraints ↔
      1 ≤ (mealItems dfW "Snack").length) := by
  have h := meal_variety_emission_iff dfW tW
  exact ⟨by simp, h.1 "Breakfast" (by simp), h.2⟩

/-- C10: `build_diet_model` keys its variable dictionaries by the item
name alone (`svar`/`yvar` send a name to its `servings`/`select`
variable), so two catalog rows sharing a `Food_Item` name — even under
different meal types — share one variable pair, and `weightMap` (used by
`extract_solution`) looks serving weights up by name alone, so they also
share a single serving weight; every row's calorie-balance term is built
from the shared name-keyed servings variable. -/
theorem variables_keyed_by_item_name (df : List Row)
    (targets : NutritionTargets) :
    (∀ r ∈ df,
      (build_diet_model df targets).svar r.food_item
          = Var.servings r.food_item ∧
      (build_diet_model df targets).yvar r.food_item
          = Var.select r.food_item) ∧
    (∀ r1 ∈ df, ∀ r2 ∈ df, r1.food_item = r2.food_item →
      (build_diet_model df targets).svar r1.food_item
          = (build_diet_model df targets).svar r2.food_item ∧
      (build_diet_model df targets).yvar r1.food_item
          = (build_diet_model df targets).yvar r2.food_item ∧
      weightMap df r1.food_item = weightMap df r2.food_item) ∧
    (∀ a : Var → ℚ,
      LinExpr.eval a (calorieBalanceCon df targets).lhs
        = (df.map fun r =>
            r.calories *
              a ((build_diet_model df targets).svar r.food_item)).sum) := by
  refine ⟨fun r _ => ⟨rfl, rfl⟩,
    fun r1 _ r2 _ h => ⟨by rw [h], by rw [h], by rw [h]⟩,
    fun a => ?_⟩
  simp only [calorieBalanceCon, nutrientSum, LinExpr.eval, List.map_map,
    Function.comp_def, add_zero]
  rfl

/-- Witness for C10 on `dfDup`, whose two rows carry the same
`Food_Item` name `"A"` under meal types `"Breakfast"` and `"Snack"`:
both rows share the servings/select variable pair and the (single,
last-row) serving weight. -/
theorem variables_keyed_by_item_name_witness :
    ((⟨"A", "Breakfast", 200, 10, 5, 20, 50⟩ : Row) ∈ dfDup) ∧
    ((⟨"A", "Snack", 100, 5, 2, 10, 30⟩ : Row) ∈ dfDup) ∧
    Row.food_item ⟨"A", "Breakfast", 200, 10, 5, 20, 50⟩
      = Row.food_item ⟨"A", "Snack", 100, 5, 2, 10, 30⟩ ∧
    ((build_diet_model dfDup tW).svar
        (Row.food_item ⟨"A", "Breakfast", 200, 10, 5, 20, 50⟩)
      = (build_diet_model dfDup tW).svar
        (Row.food_item ⟨"A", "Snack", 100, 5, 2, 10, 30⟩) ∧
    (build_diet_model dfDup tW).yvar
        (Row.food_item ⟨"A", "Breakfast", 200, 10, 5, 20, 50⟩)
      = (build_diet_model dfDup tW).yvar
        (Row.food_item ⟨"A", "Snack", 100, 5, 2, 10, 30⟩) ∧
    weightMap dfDup (Row.food_item ⟨"A", "Breakfast", 200, 10, 5, 20, 50⟩)
      = weightMap dfDup
        (Row.food_item ⟨"A", "Snack", 100, 5, 2, 10, 30⟩)) := by
  have h1 : (⟨"A", "Breakfast", 200, 10, 5, 20, 50⟩ : Row) ∈ dfDup := by
    unfold dfDup
    exact List.mem_cons_self _ _
  have h2 : (⟨"A", "Snack", 100, 5, 2, 10, 30⟩ : Row) ∈ dfDup := by
    unfold dfDup
    exact List.mem_cons_of_mem _ (List.mem_cons_self _ _)
  exact ⟨h1, h2, rfl,
    (variables_keyed_by_item_name dfDup tW).2.1 _ h1 _ h2 rfl⟩

end CalorieOptimizer
